import Mathlib

/-
Shallow embedding of the Octolapse gcode wiper core
(src/octoprint_octolapse/data/lib/c/gcode_wiper.cpp).

C++ `double` values are modelled as idealized real numbers; raw owning
pointers that may be NULL are modelled as `Option` values, so the
pointer-aliasing bookkeeping of the destructor collapses to plain value
semantics.  The auxiliary translation units `utilities.cpp`, the
`gcode_wiper_position` class, the history container
`gcode_wiper_position_list` and the helper `wipe_distance_to_retraction_`
are declared but not present under src/; they are modelled from the spec,
as marked on each such definition.
-/

noncomputable section

/-- Modelled from the spec: `utilities.cpp` is not under src/.  The spec (§2)
names a cartesian-distance primitive; this is the euclidean distance between
the two points. -/
def get_cartesian_distance (x1 y1 x2 y2 : ℝ) : ℝ :=
  Real.sqrt ((x2 - x1) ^ 2 + (y2 - y1) ^ 2)

/-- Modelled from the spec: the comparison primitives of the missing
`utilities.cpp`.  The spec (§7) prescribes tolerance-based comparisons but
fixes no tolerance value, so they are modelled as the exact comparisons
(tolerance zero) on the idealized reals standing in for `double`. -/
abbrev less_than (x y : ℝ) : Prop := x < y

/-- Modelled from the spec: see `less_than`. -/
abbrev greater_than (x y : ℝ) : Prop := y < x

/-- Modelled from the spec: see `less_than`. -/
abbrev greater_than_or_equal (x y : ℝ) : Prop := y ≤ x

/-- Modelled from the spec: see `less_than`. -/
abbrev is_equal (x y : ℝ) : Prop := x = y

/-- Modelled from the spec: see `less_than`. -/
abbrev is_zero (x : ℝ) : Prop := x = 0

/-- Modelled from the spec: the helper `wipe_distance_to_retraction_` is
declared in the missing header.  Per §4.4/§4.6 it converts a wipe travel
distance into the nominal retraction amount via
`distance × distance_to_retraction_ratio`. -/
def wipe_distance_to_retraction_ (distance r : ℝ) : ℝ := distance * r

/-- Modelled from the spec: the `gcode_wiper_position` class (and the
`position` values handed to `update`) are not under src/.  Fields follow the
spec's Position data model (§3): coordinates, offset-adjusted coordinates,
the offset-adjusted extrusion coordinate and the classification flags. -/
structure gcode_wiper_position where
  x : ℝ
  y : ℝ
  offset_x : ℝ
  offset_y : ℝ
  offset_e : ℝ
  is_extruder_relative : Bool
  is_relative : Bool
  is_extruding : Bool
  has_xy_position_changed : Bool
  is_layer_change : Bool

/-- Modelled from the spec: accessor returning the offset-adjusted x. -/
def gcode_wiper_position.get_offset_x (p : gcode_wiper_position) : ℝ := p.offset_x

/-- Modelled from the spec: accessor returning the offset-adjusted y. -/
def gcode_wiper_position.get_offset_y (p : gcode_wiper_position) : ℝ := p.offset_y

/-- Modelled from the spec: accessor returning the offset-adjusted extrusion
coordinate. -/
def gcode_wiper_position.get_offset_e (p : gcode_wiper_position) : ℝ := p.offset_e

/-- The wiper settings (`gcode_wiper_args`), as used by gcode_wiper.cpp. -/
structure gcode_wiper_args where
  retraction_length : ℝ
  retract_before_wipe_percent : ℝ
  retract_after_wipe_percent : ℝ
  retraction_feedrate : ℝ
  wipe_feedrate : ℝ
  x_y_travel_speed : ℝ

/-- Modelled from the spec: the history container
`gcode_wiper_position_list` is not under src/.  Per §3 it is an ordered
sequence of positions (oldest first) with append, prune-from-front, peek,
clear and a single-level undo snapshot; per the source comment at
gcode_wiper.cpp:228-229, entries removed from the front stay restorable
until the next `push_back`/`clear`, so the snapshot of the whole item list
is taken by `push_back` and `clear` and left untouched by `remove`. -/
structure gcode_wiper_position_list where
  items : List gcode_wiper_position
  previous_items : List gcode_wiper_position

/-- Modelled from the spec: number of stored (live) positions. -/
def gcode_wiper_position_list.size (h : gcode_wiper_position_list) : ℕ :=
  h.items.length

/-- Modelled from the spec: the oldest stored position, if any. -/
def gcode_wiper_position_list.peek (h : gcode_wiper_position_list) :
    Option gcode_wiper_position :=
  h.items.head?

/-- Modelled from the spec: append a position, snapshotting the previous
contents for the single-level undo. -/
def gcode_wiper_position_list.push_back (h : gcode_wiper_position_list)
    (p : gcode_wiper_position) : gcode_wiper_position_list :=
  { items := h.items ++ [p], previous_items := h.items }

/-- Modelled from the spec: remove the oldest position; the undo snapshot is
left untouched (removed entries stay restorable until the next
`push_back`/`clear`). -/
def gcode_wiper_position_list.remove (h : gcode_wiper_position_list) :
    gcode_wiper_position_list :=
  { items := h.items.tail, previous_items := h.previous_items }

/-- Modelled from the spec: drop all positions, snapshotting the previous
contents for the single-level undo. -/
def gcode_wiper_position_list.clear (h : gcode_wiper_position_list) :
    gcode_wiper_position_list :=
  { items := [], previous_items := h.items }

/-- Modelled from the spec: restore the single-level snapshot, consuming it. -/
def gcode_wiper_position_list.undo (h : gcode_wiper_position_list) :
    gcode_wiper_position_list :=
  { items := h.previous_items, previous_items := [] }

/-- The `gcode_wiper` engine state (member variables of the C++ class). -/
structure gcode_wiper where
  settings_ : gcode_wiper_args
  total_distance_ : ℝ
  previous_total_distance_ : ℝ
  p_starting_position_ : Option gcode_wiper_position
  p_previous_starting_position_ : Option gcode_wiper_position
  is_initialized_ : Bool
  use_full_wipe_ : Bool
  pre_wipe_retract_length_ : ℝ
  post_wipe_retract_length_ : ℝ
  wipe_distance_ : ℝ
  half_wipe_distance_ : ℝ
  distance_to_retraction_ratio_ : ℝ
  history_ : gcode_wiper_position_list

/-- The default constructor `gcode_wiper::gcode_wiper()` (lines 5-15).  It
sets the accounting members and flags; `settings_` is default-constructed and
the derived geometry members are left indeterminate until `initialize`, so
they appear here as parameters. -/
def gcode_wiper_new (s : gcode_wiper_args) (pre post wd hwd dtr : ℝ) :
    gcode_wiper where
  settings_ := s
  total_distance_ := 0
  previous_total_distance_ := 0
  p_starting_position_ := none
  p_previous_starting_position_ := none
  is_initialized_ := false
  use_full_wipe_ := true
  pre_wipe_retract_length_ := pre
  post_wipe_retract_length_ := post
  wipe_distance_ := wd
  half_wipe_distance_ := hwd
  distance_to_retraction_ratio_ := dtr
  history_ := { items := [], previous_items := [] }

/-- The settings normalization performed at the start of `initialize`
(lines 34-51): clamp the two percents below by zero, then, if their sum
exceeds 1 and is non-zero, rescale both by `1 / sum`. -/
def normalize_settings (s : gcode_wiper_args) : gcode_wiper_args :=
  let before1 := if less_than s.retract_before_wipe_percent 0 then 0
    else s.retract_before_wipe_percent
  let after1 := if less_than s.retract_after_wipe_percent 0 then 0
    else s.retract_after_wipe_percent
  let total_retraction_percent := before1 + after1
  if greater_than total_retraction_percent 1 ∧
      ¬ is_zero total_retraction_percent then
    let reduction_r := 1 / total_retraction_percent
    { s with
      retract_before_wipe_percent := reduction_r * before1,
      retract_after_wipe_percent := reduction_r * after1 }
  else
    { s with
      retract_before_wipe_percent := before1,
      retract_after_wipe_percent := after1 }

/-- The wipe distance derived in `initialize` (lines 54-60) from the
(already normalized) settings: the retraction left for the wipe itself,
scaled by the wipe-to-retraction feedrate ratio. -/
def derived_wipe_distance (s : gcode_wiper_args) : ℝ :=
  let pre := s.retraction_length * s.retract_before_wipe_percent
  let post := s.retraction_length * s.retract_after_wipe_percent
  let wipe_retraction_length := s.retraction_length - pre - post
  let wipe_retraction_speed_r := s.wipe_feedrate / s.retraction_feedrate
  wipe_retraction_length * wipe_retraction_speed_r

/-- `gcode_wiper::initialize` (lines 32-66): normalize the stored settings,
derive the pre/post retract lengths, the wipe distance, its half, and the
distance-to-retraction ratio (an unguarded division by the wipe distance,
line 62), then mark the engine initialized. -/
def gcode_wiper.initialize_engine (w : gcode_wiper) : gcode_wiper :=
  let s := normalize_settings w.settings_
  let pre := s.retraction_length * s.retract_before_wipe_percent
  let post := s.retraction_length * s.retract_after_wipe_percent
  let wipe_distance := derived_wipe_distance s
  let dtr := (s.retraction_length - pre - post) / wipe_distance
  { w with
    settings_ := s
    pre_wipe_retract_length_ := pre
    post_wipe_retract_length_ := post
    distance_to_retraction_ratio_ := dtr
    wipe_distance_ := wipe_distance
    half_wipe_distance_ := wipe_distance * 0.5
    is_initialized_ := true }

/-- `gcode_wiper::get_wipe_distance` (lines 159-167). -/
def gcode_wiper.get_wipe_distance (w : gcode_wiper) : ℝ :=
  if w.use_full_wipe_ then w.wipe_distance_ else w.half_wipe_distance_

/-- `gcode_wiper::get_missing_retraction` (lines 169-180).  Note: in the
full-wipe branch the source subtracts the boolean member `use_full_wipe_`
from nothing less than a distance (line 174); the implicit C++ conversion
turns `true` into `1.0`, reproduced here verbatim. -/
def gcode_wiper.get_missing_retraction (w : gcode_wiper) : ℝ :=
  if w.use_full_wipe_ then
    wipe_distance_to_retraction_
      ((if w.use_full_wipe_ then (1 : ℝ) else 0) - w.total_distance_)
      w.distance_to_retraction_ratio_
  else
    wipe_distance_to_retraction_
      ((w.half_wipe_distance_ - w.total_distance_) * 2)
      w.distance_to_retraction_ratio_

/-- `gcode_wiper::get_extra_retraction` (lines 182-187). -/
def gcode_wiper.get_extra_retraction (w : gcode_wiper) : ℝ :=
  if w.use_full_wipe_ then w.total_distance_ - w.wipe_distance_
  else w.total_distance_ - w.half_wipe_distance_

/-- `gcode_wiper::save_undo_data` (lines 99-109): the current anchor and
total distance become the single-level undo snapshot. -/
def gcode_wiper.save_undo_data (w : gcode_wiper) : gcode_wiper :=
  { w with
    p_previous_starting_position_ := w.p_starting_position_
    previous_total_distance_ := w.total_distance_ }

/-- `gcode_wiper::restore_undo_data` (lines 111-121): restore the anchor and
total distance from the snapshot and consume it.  Line 120 assigns the
boolean literal `false` to the `double` member `previous_total_distance_`,
i.e. `0.0`. -/
def gcode_wiper.restore_undo_data (w : gcode_wiper) : gcode_wiper :=
  { w with
    p_starting_position_ := w.p_previous_starting_position_
    p_previous_starting_position_ := none
    total_distance_ := w.previous_total_distance_
    previous_total_distance_ := 0 }

/-- `gcode_wiper::undo` (lines 93-97). -/
def gcode_wiper.undo (w : gcode_wiper) : gcode_wiper :=
  let w1 := w.restore_undo_data
  { w1 with history_ := w1.history_.undo }

/-- The `while` loop of `gcode_wiper::prune_history` (lines 196-235), as a
fuel-indexed recursion; each committed iteration removes one front entry, so
fuel equal to the history length covers every iteration the C++ loop can
perform.  The two stop arms for an empty history or a missing anchor mark
states in which the C++ would dereference an invalid pointer; they are
unreachable in runs the claims quantify over. -/
def gcode_wiper.prune_loop (distance : ℝ) : ℕ → gcode_wiper → gcode_wiper
  | 0, w => w
  | Nat.succ fuel, w =>
    if w.total_distance_ > distance then
      match w.history_.items with
      | [] => w
      | front_item :: _ =>
        match w.p_starting_position_ with
        | none => w
        | some sp =>
          let distance_removed :=
            get_cartesian_distance sp.x sp.y front_item.x front_item.y
          let new_total_distance := w.total_distance_ - distance_removed
          if less_than new_total_distance distance then w
          else
            gcode_wiper.prune_loop distance fuel
              { w with
                p_starting_position_ := some front_item
                total_distance_ := new_total_distance
                history_ := w.history_.remove }
    else w

/-- `gcode_wiper::prune_history` (lines 189-236): run the pruning loop
against the currently required wipe distance. -/
def gcode_wiper.prune_history (w : gcode_wiper) : gcode_wiper :=
  gcode_wiper.prune_loop w.get_wipe_distance w.history_.items.length w

/-- `gcode_wiper::update` (lines 123-157): no-op when not initialized; snap
the undo data; clear everything on a layer change or a non-extruding /
non-XY move; otherwise anchor the previous position when the history is
empty, append the current position, accumulate the cartesian distance and
prune. -/
def gcode_wiper.update (w : gcode_wiper)
    (current_position previous_position : gcode_wiper_position) :
    gcode_wiper :=
  if w.is_initialized_ = false then w
  else
    let w1 := w.save_undo_data
    if current_position.is_layer_change ||
        !(current_position.has_xy_position_changed &&
          current_position.is_extruding) then
      { w1 with total_distance_ := 0, history_ := w1.history_.clear }
    else
      let w2 := if w1.history_.size = 0 then
          { w1 with p_starting_position_ := some previous_position }
        else w1
      let w3 :=
        { w2 with
          history_ := w2.history_.push_back current_position
          previous_total_distance_ := w2.total_distance_
          total_distance_ := w2.total_distance_ +
            get_cartesian_distance previous_position.x previous_position.y
              current_position.x current_position.y }
      w3.prune_history

/-- `gcode_wiper::clip_wipe_path` (lines 238-259), functionally: the C++
first replaces both pointers by fresh copies and then moves the copied `to`
toward `from` by the kept-distance ratio; the returned pair is (copied and
untouched `from`, copied and clipped `to`). -/
def gcode_wiper.clip_wipe_path (distance_to_clip : ℝ)
    (from_position to_position : gcode_wiper_position) :
    gcode_wiper_position × gcode_wiper_position :=
  let distance := get_cartesian_distance from_position.x from_position.y
    to_position.x to_position.y
  let kept_distance_r := (distance - distance_to_clip) / distance
  let x_relative := (to_position.x - from_position.x) * kept_distance_r
  let y_relative := (to_position.y - from_position.y) * kept_distance_r
  (from_position,
    { to_position with
      x := from_position.x + x_relative
      y := from_position.y + y_relative })

/-- A produced wipe step (`gcode_wiper_step`): a motion step with extrusion,
a pure travel move, or a retract-only step. -/
inductive gcode_wiper_step where
  | wipe (x y e f : ℝ)
  | travel (x y f : ℝ)
  | retract (e f : ℝ)

instance : Inhabited gcode_wiper_step := ⟨gcode_wiper_step.travel 0 0 0⟩

/-- `gcode_wiper::get_retract_step` (lines 518-521). -/
def get_retract_step (e f : ℝ) : gcode_wiper_step :=
  gcode_wiper_step.retract e f

/-- `gcode_wiper::get_travel_step` (lines 513-516). -/
def get_travel_step (x y f : ℝ) : gcode_wiper_step :=
  gcode_wiper_step.travel x y f

/-- `gcode_wiper::get_wipe_step` (lines 458-511), with the by-reference
`current_offset_e` threaded as the second component of the result.  The two
`is_return` sub-branches of the C++ are syntactically identical in both
extruder modes and are collapsed here. -/
def gcode_wiper.get_wipe_step (w : gcode_wiper)
    (start_position end_position : gcode_wiper_position)
    (retraction_relative current_offset_e feedrate : ℝ) (is_return : Bool) :
    gcode_wiper_step × ℝ :=
  let x := if end_position.is_relative then
      end_position.x - start_position.x
    else end_position.get_offset_x
  let y := if end_position.is_relative then
      end_position.y - start_position.y
    else end_position.get_offset_y
  if !(w.use_full_wipe_ && is_return) then
    if end_position.is_extruder_relative then
      (gcode_wiper_step.wipe x y (-1 * retraction_relative) feedrate,
        current_offset_e)
    else
      let e := current_offset_e - retraction_relative
      (gcode_wiper_step.wipe x y e feedrate, e)
  else
    (gcode_wiper_step.travel x y feedrate, current_offset_e)

/-- One traversal pass of `get_wipe_steps` (the inner loop at lines
364-398): the positions to visit, the running previous position (NULL on
entry to pass 0), the running `current_offset_e` and the running feedrate
are threaded; the result carries the emitted steps and the final values of
the three running variables.  The first visited position of pass 0 only
seeds `previous_position` and the offset (minus the pre-wipe retraction when
one was emitted); after every emitted step the feedrate is reset to -1. -/
def gcode_wiper.wipe_pass (w : gcode_wiper) (is_return has_pre : Bool) :
    List gcode_wiper_position → Option gcode_wiper_position → ℝ → ℝ →
    List gcode_wiper_step × Option gcode_wiper_position × ℝ × ℝ
  | [], prev, current_offset_e, feedrate =>
    ([], prev, current_offset_e, feedrate)
  | current :: rest, none, _, feedrate =>
    let oe := current.get_offset_e -
      (if has_pre then w.pre_wipe_retract_length_ else 0)
    gcode_wiper.wipe_pass w is_return has_pre rest (some current) oe feedrate
  | current :: rest, some previous, current_offset_e, feedrate =>
    let segment_distance := get_cartesian_distance previous.x previous.y
      current.x current.y
    let retraction_relative := wipe_distance_to_retraction_ segment_distance
      w.distance_to_retraction_ratio_
    let sp := w.get_wipe_step previous current retraction_relative
      current_offset_e feedrate is_return
    let rec_result := gcode_wiper.wipe_pass w is_return has_pre rest
      (some current) sp.2 (-1)
    (sp.1 :: rec_result.1, rec_result.2.1, rec_result.2.2.1, rec_result.2.2.2)

/-- The post-wipe retract length resolved at the start of `get_wipe_steps`
(lines 281-289): the configured length plus the missing retraction when the
latter is non-negative. -/
def gcode_wiper.resolved_post_length (w : gcode_wiper) : ℝ :=
  if greater_than_or_equal w.get_missing_retraction 0 then
    w.post_wipe_retract_length_ + w.get_missing_retraction
  else w.post_wipe_retract_length_

/-- The body of `gcode_wiper::get_wipe_steps` after its guard (lines
269-455), for a state whose anchor is `start0` and whose history holds
`first0 :: rest` (oldest first).  Pass 0 walks the history newest-to-oldest
(visiting the possibly clipped copy `first_position` in place of the oldest
entry), the turn-around pair bridges to the possibly clipped anchor and
back, and pass 1 walks oldest-to-newest over the remaining entries. -/
def gcode_wiper.get_wipe_steps_body (w : gcode_wiper)
    (start0 first0 : gcode_wiper_position)
    (rest : List gcode_wiper_position) : List gcode_wiper_step :=
  let missing_retraction := w.get_missing_retraction
  let post_wipe_retract_length :=
    if greater_than_or_equal missing_retraction 0 then
      w.post_wipe_retract_length_ + missing_retraction
    else w.post_wipe_retract_length_
  let extra_distance := w.get_extra_retraction
  let fs := if greater_than extra_distance 0 then
      gcode_wiper.clip_wipe_path extra_distance first0 start0
    else (first0, start0)
  let first_position := fs.1
  let start_position := fs.2
  let has_pre : Bool :=
    if greater_than w.pre_wipe_retract_length_ 0 then true else false
  let pre_steps :=
    if greater_than w.pre_wipe_retract_length_ 0 then
      let last_position := rest.getLastD first0
      let e := if last_position.is_extruder_relative then
          -1 * w.pre_wipe_retract_length_
        else last_position.get_offset_e - w.pre_wipe_retract_length_
      [get_retract_step e w.settings_.retraction_feedrate]
    else []
  let visit0 := rest.reverse ++ [first_position]
  let pass0 := gcode_wiper.wipe_pass w false has_pre visit0 none 0
    w.settings_.wipe_feedrate
  let steps0 := pass0.1
  let previous0 := pass0.2.1.getD first_position
  let oe0 := pass0.2.2.1
  let f0 := pass0.2.2.2
  let segment_distance := get_cartesian_distance previous0.x previous0.y
    start_position.x start_position.y
  let retraction_relative := wipe_distance_to_retraction_ segment_distance
    w.distance_to_retraction_ratio_
  let sA := w.get_wipe_step previous0 start_position retraction_relative oe0
    f0 false
  let fB := if w.use_full_wipe_ then w.settings_.x_y_travel_speed else -1
  let sB := w.get_wipe_step start_position previous0 retraction_relative sA.2
    fB true
  let pass1 := gcode_wiper.wipe_pass w true has_pre rest (some previous0)
    sB.2 fB
  let steps1 := pass1.1
  let current_last := pass1.2.1.getD previous0
  let oe1 := pass1.2.2.1
  let f1 := pass1.2.2.2
  let post_steps :=
    if post_wipe_retract_length > 0 then
      let fpost := if is_equal w.settings_.retraction_feedrate
          w.settings_.wipe_feedrate then f1
        else w.settings_.retraction_feedrate
      let e := if current_last.is_extruder_relative then
          -1 * post_wipe_retract_length
        else oe1 - post_wipe_retract_length
      [get_retract_step e fpost]
    else []
  pre_steps ++ steps0 ++ [sA.1, sB.1] ++ steps1 ++ post_steps

/-- `gcode_wiper::get_wipe_steps` (lines 261-456).  The history container is
not under src/; per the source's own usage (lines 291-294 and the comment at
228-229) `get_position_history` hands back the stored positions with
`start_index` the index of the oldest live entry, and the modelled container
retains exactly the live entries, so the position vector is the item list
and `start_index` is 0.  The guard (line 265) empties the output when the
total distance is zero, the anchor is missing or the history is empty. -/
def gcode_wiper.get_wipe_steps (w : gcode_wiper) : List gcode_wiper_step :=
  match w.p_starting_position_, w.history_.items with
  | some start0, first0 :: rest =>
    if w.total_distance_ = 0 then []
    else gcode_wiper.get_wipe_steps_body w start0 first0 rest
  | _, _ => []

/-- Whether a step is a retract-only step. -/
def is_retract_step : gcode_wiper_step → Bool
  | gcode_wiper_step.retract _ _ => true
  | _ => false

/-- The reachable engine states: those produced from a freshly constructed
wiper (default constructor, with indeterminate derived members) by any
sequence of `initialize`, `update` and `undo` calls.  The argument-taking
constructor (lines 17-30) is `initialize` applied to a fresh wiper and is
covered by `new_wiper` followed by `init_call`. -/
inductive reaches : gcode_wiper → Prop where
  | new_wiper (s : gcode_wiper_args) (pre post wd hwd dtr : ℝ) :
      reaches (gcode_wiper_new s pre post wd hwd dtr)
  | init_call {w : gcode_wiper} : reaches w → reaches w.initialize_engine
  | update_call {w : gcode_wiper}
      (current_position previous_position : gcode_wiper_position) :
      reaches w → reaches (w.update current_position previous_position)
  | undo_call {w : gcode_wiper} : reaches w → reaches w.undo

/-- A position at (x, y) with matching offset coordinates, zero extrusion
offset, absolute axes, and the flags of an ordinary extruding XY move. -/
def pos_xy (x y : ℝ) : gcode_wiper_position :=
  { x := x, y := y, offset_x := x, offset_y := y, offset_e := 0,
    is_extruder_relative := false, is_relative := false,
    is_extruding := true, has_xy_position_changed := true,
    is_layer_change := false }

/-- The concrete scenario settings of spec §8: retraction length 2, both
percents 0.2, retraction feedrate 1800, wipe feedrate 3600, travel speed
6000; the derived values are pre = post = 0.4, wipe distance 2.4, ratio
0.5. -/
def args_ex : gcode_wiper_args :=
  { retraction_length := 2, retract_before_wipe_percent := 1 / 5,
    retract_after_wipe_percent := 1 / 5, retraction_feedrate := 1800,
    wipe_feedrate := 3600, x_y_travel_speed := 6000 }

/-- An initialized engine state carrying the §8 derived geometry with an
accumulated wipe path of length 1/2. -/
def wiper_missing_ex : gcode_wiper :=
  { settings_ := args_ex, total_distance_ := 1 / 2,
    previous_total_distance_ := 0,
    p_starting_position_ := some (pos_xy 0 0),
    p_previous_starting_position_ := none, is_initialized_ := true,
    use_full_wipe_ := true, pre_wipe_retract_length_ := 2 / 5,
    post_wipe_retract_length_ := 2 / 5, wipe_distance_ := 12 / 5,
    half_wipe_distance_ := 6 / 5, distance_to_retraction_ratio_ := 1 / 2,
    history_ := { items := [pos_xy (1 / 2) 0], previous_items := [] } }

/-- Claim C10: a first `undo` consumes the snapshot (the saved anchor slot
becomes empty and the saved distance 0), so a second `undo` without an
intervening `update` leaves `starting_position` absent and
`total_distance` 0, for every state. -/
theorem undo_twice_destroys_accounting (w : gcode_wiper) :
    w.undo.p_previous_starting_position_ = none ∧
    w.undo.previous_total_distance_ = 0 ∧
    w.undo.undo.p_starting_position_ = none ∧
    w.undo.undo.total_distance_ = 0 :=
  ⟨rfl, rfl, rfl, rfl⟩

/-- Claim C2 (code bug): in full-wipe mode `get_missing_retraction` computes
`(1 − total_distance) × ratio` — the boolean `use_full_wipe_` is implicitly
converted to 1.0 at line 174 — instead of the documented
`(wipe_distance − total_distance) × ratio`.  At the §8-derived state with
total distance 1/2 the code yields 1/4 while the documented value is
19/20. -/
theorem get_missing_retraction_full_wipe_bug :
    wiper_missing_ex.get_missing_retraction = 1 / 4 ∧
    (wiper_missing_ex.wipe_distance_ - wiper_missing_ex.total_distance_) *
      wiper_missing_ex.distance_to_retraction_ratio_ = 19 / 20 ∧
    wiper_missing_ex.get_missing_retraction ≠
      (wiper_missing_ex.wipe_distance_ - wiper_missing_ex.total_distance_) *
        wiper_missing_ex.distance_to_retraction_ratio_ := by
  refine ⟨?_, ?_, ?_⟩ <;>
    norm_num [gcode_wiper.get_missing_retraction,
      wipe_distance_to_retraction_, wiper_missing_ex]

/-- The normalization performed by `normalize_settings`: both percents come
out non-negative, and whenever the clamped percents sum to more than 1 the
normalized percents sum to exactly 1 with their ratio preserved (stated
multiplicatively). -/
theorem normalize_settings_spec (s : gcode_wiper_args) :
    0 ≤ (normalize_settings s).retract_before_wipe_percent ∧
    0 ≤ (normalize_settings s).retract_after_wipe_percent ∧
    (1 < (if less_than s.retract_before_wipe_percent 0 then 0
          else s.retract_before_wipe_percent) +
        (if less_than s.retract_after_wipe_percent 0 then 0
          else s.retract_after_wipe_percent) →
      (normalize_settings s).retract_before_wipe_percent +
        (normalize_settings s).retract_after_wipe_percent = 1 ∧
      (normalize_settings s).retract_before_wipe_percent *
          (if less_than s.retract_after_wipe_percent 0 then 0
            else s.retract_after_wipe_percent) =
        (normalize_settings s).retract_after_wipe_percent *
          (if less_than s.retract_before_wipe_percent 0 then 0
            else s.retract_before_wipe_percent)) := by
  obtain ⟨rl, a, b, rf, wf, ts⟩ := s
  dsimp only [normalize_settings, less_than, greater_than, is_zero]
  have hA : (0:ℝ) ≤ if a < 0 then (0:ℝ) else a := by
    by_cases h : a < 0
    · simp [h]
    · simpa [h] using le_of_not_lt h
  have hB : (0:ℝ) ≤ if b < 0 then (0:ℝ) else b := by
    by_cases h : b < 0
    · simp [h]
    · simpa [h] using le_of_not_lt h
  set A := (if a < 0 then (0:ℝ) else a) with hAdef
  set B := (if b < 0 then (0:ℝ) else b) with hBdef
  by_cases hgt : 1 < A + B
  · have hpos : (0:ℝ) < A + B := lt_trans one_pos hgt
    have hne : A + B ≠ 0 := ne_of_gt hpos
    rw [if_pos ⟨hgt, fun h => hne h⟩]
    dsimp only
    refine ⟨mul_nonneg (one_div_nonneg.mpr hpos.le) hA,
      mul_nonneg (one_div_nonneg.mpr hpos.le) hB, fun _ => ⟨?_, by ring⟩⟩
    have hsum : 1 / (A + B) * A + 1 / (A + B) * B = (A + B) * (1 / (A + B)) := by
      ring
    rw [hsum, mul_one_div, div_self hne]
  · rw [if_neg (fun h => hgt h.1)]
    dsimp only
    exact ⟨hA, hB, fun h => absurd h hgt⟩

/-- Claim C3: after `initialize`, both retraction percents are non-negative,
and whenever the clamped percents sum to more than 1, the post-normalization
percents sum to exactly 1 and keep their pre-normalization ratio (stated
multiplicatively to cover zero denominators). -/
theorem initialize_normalizes_percents (w : gcode_wiper) :
    0 ≤ w.initialize_engine.settings_.retract_before_wipe_percent ∧
    0 ≤ w.initialize_engine.settings_.retract_after_wipe_percent ∧
    (1 < (if less_than w.settings_.retract_before_wipe_percent 0 then 0
          else w.settings_.retract_before_wipe_percent) +
        (if less_than w.settings_.retract_after_wipe_percent 0 then 0
          else w.settings_.retract_after_wipe_percent) →
      w.initialize_engine.settings_.retract_before_wipe_percent +
        w.initialize_engine.settings_.retract_after_wipe_percent = 1 ∧
      w.initialize_engine.settings_.retract_before_wipe_percent *
          (if less_than w.settings_.retract_after_wipe_percent 0 then 0
            else w.settings_.retract_after_wipe_percent) =
        w.initialize_engine.settings_.retract_after_wipe_percent *
          (if less_than w.settings_.retract_before_wipe_percent 0 then 0
            else w.settings_.retract_before_wipe_percent)) :=
  normalize_settings_spec w.settings_

/-- Settings whose percents (0.8 and 0.6) sum to more than 1. -/
def args_over : gcode_wiper_args :=
  { retraction_length := 2, retract_before_wipe_percent := 4 / 5,
    retract_after_wipe_percent := 3 / 5, retraction_feedrate := 1800,
    wipe_feedrate := 3600, x_y_travel_speed := 6000 }

/-- A fresh wiper built on the over-100% settings. -/
def wiper_over : gcode_wiper := gcode_wiper_new args_over 0 0 0 0 0

/-- Witness for claim C3 at the concrete over-100% settings (percents 0.8
and 0.6): the clamped sum exceeds 1 and the normalized percents sum to 1. -/
theorem initialize_normalizes_percents_witness :
    0 ≤ wiper_over.initialize_engine.settings_.retract_before_wipe_percent ∧
    0 ≤ wiper_over.initialize_engine.settings_.retract_after_wipe_percent ∧
    wiper_over.initialize_engine.settings_.retract_before_wipe_percent +
      wiper_over.initialize_engine.settings_.retract_after_wipe_percent = 1 := by
  have h := initialize_normalizes_percents wiper_over
  refine ⟨h.1, h.2.1, (h.2.2 ?_).1⟩
  norm_num [wiper_over, gcode_wiper_new, args_over, less_than]

/-- Claim C8: for endpoints a positive segment length apart and a clip
distance between 0 and that length, `clip_wipe_path` returns the `from`
copy unchanged, moves the `to` copy toward `from` by the kept-distance
ratio componentwise, and the resulting distance from `from` to the new `to`
is the segment length minus the clipped distance. -/
theorem clip_wipe_path_spec (distance_to_clip : ℝ)
    (from_position to_position : gcode_wiper_position)
    (hL : 0 < get_cartesian_distance from_position.x from_position.y
      to_position.x to_position.y)
    (h0 : 0 ≤ distance_to_clip)
    (h1 : distance_to_clip ≤ get_cartesian_distance from_position.x
      from_position.y to_position.x to_position.y) :
    (gcode_wiper.clip_wipe_path distance_to_clip from_position
        to_position).1 = from_position ∧
    (gcode_wiper.clip_wipe_path distance_to_clip from_position
        to_position).2.x = from_position.x +
      (to_position.x - from_position.x) *
      ((get_cartesian_distance from_position.x from_position.y to_position.x
          to_position.y - distance_to_clip) /
        get_cartesian_distance from_position.x from_position.y to_position.x
          to_position.y) ∧
    (gcode_wiper.clip_wipe_path distance_to_clip from_position
        to_position).2.y = from_position.y +
      (to_position.y - from_position.y) *
      ((get_cartesian_distance from_position.x from_position.y to_position.x
          to_position.y - distance_to_clip) /
        get_cartesian_distance from_position.x from_position.y to_position.x
          to_position.y) ∧
    get_cartesian_distance from_position.x from_position.y
      (gcode_wiper.clip_wipe_path distance_to_clip from_position
        to_position).2.x
      (gcode_wiper.clip_wipe_path distance_to_clip from_position
        to_position).2.y =
      get_cartesian_distance from_position.x from_position.y to_position.x
        to_position.y - distance_to_clip := by
  set L := get_cartesian_distance from_position.x from_position.y
    to_position.x to_position.y with hLdef
  set r := (L - distance_to_clip) / L with hrdef
  have hr0 : 0 ≤ r := div_nonneg (by linarith) hL.le
  refine ⟨rfl, rfl, rfl, ?_⟩
  show Real.sqrt
      ((from_position.x + (to_position.x - from_position.x) * r -
        from_position.x) ^ 2 +
      (from_position.y + (to_position.y - from_position.y) * r -
        from_position.y) ^ 2) = L - distance_to_clip
  have key : (from_position.x + (to_position.x - from_position.x) * r -
        from_position.x) ^ 2 +
      (from_position.y + (to_position.y - from_position.y) * r -
        from_position.y) ^ 2 =
      r ^ 2 * ((to_position.x - from_position.x) ^ 2 +
        (to_position.y - from_position.y) ^ 2) := by ring
  rw [key, Real.sqrt_mul (sq_nonneg r), Real.sqrt_sq_eq_abs,
    abs_of_nonneg hr0]
  have hLs : Real.sqrt ((to_position.x - from_position.x) ^ 2 +
      (to_position.y - from_position.y) ^ 2) = L := rfl
  rw [hLs, hrdef, div_mul_cancel₀ _ (ne_of_gt hL)]

/-- Witness for claim C8: the segment from (0,0) to (5,0) has length 5;
clipping it by 2 yields the new endpoint (3,0) at distance 3 from the
origin. -/
theorem clip_wipe_path_spec_witness :
    0 < get_cartesian_distance (pos_xy 0 0).x (pos_xy 0 0).y
      (pos_xy 5 0).x (pos_xy 5 0).y ∧
    (0:ℝ) ≤ 2 ∧
    (2:ℝ) ≤ get_cartesian_distance (pos_xy 0 0).x (pos_xy 0 0).y
      (pos_xy 5 0).x (pos_xy 5 0).y ∧
    get_cartesian_distance (pos_xy 0 0).x (pos_xy 0 0).y
      (gcode_wiper.clip_wipe_path 2 (pos_xy 0 0) (pos_xy 5 0)).2.x
      (gcode_wiper.clip_wipe_path 2 (pos_xy 0 0) (pos_xy 5 0)).2.y =
      get_cartesian_distance (pos_xy 0 0).x (pos_xy 0 0).y
        (pos_xy 5 0).x (pos_xy 5 0).y - 2 := by
  have h5 : get_cartesian_distance (pos_xy 0 0).x (pos_xy 0 0).y
      (pos_xy 5 0).x (pos_xy 5 0).y = 5 := by
    show Real.sqrt (((5:ℝ) - 0) ^ 2 + ((0:ℝ) - 0) ^ 2) = 5
    rw [show ((5:ℝ) - 0) ^ 2 + ((0:ℝ) - 0) ^ 2 = 5 ^ 2 by norm_num,
      Real.sqrt_sq (by norm_num : (0:ℝ) ≤ 5)]
  refine ⟨by rw [h5]; norm_num, by norm_num, by rw [h5]; norm_num, ?_⟩
  exact (clip_wipe_path_spec 2 (pos_xy 0 0) (pos_xy 5 0)
    (by rw [h5]; norm_num) (by norm_num) (by rw [h5]; norm_num)).2.2.2

/-- The pruning loop only rewrites the anchor, the total distance and the
item list; the undo snapshot fields pass through untouched. -/
theorem prune_loop_undo_fields (distance : ℝ) (fuel : ℕ) (w : gcode_wiper) :
    (gcode_wiper.prune_loop distance fuel w).previous_total_distance_ =
      w.previous_total_distance_ ∧
    (gcode_wiper.prune_loop distance fuel w).p_previous_starting_position_ =
      w.p_previous_starting_position_ := by
  induction fuel generalizing w with
  | zero => exact ⟨rfl, rfl⟩
  | succ n ih =>
    simp only [gcode_wiper.prune_loop]
    split
    · split
      · exact ⟨rfl, rfl⟩
      · split
        · exact ⟨rfl, rfl⟩
        · split
          · exact ⟨rfl, rfl⟩
          · exact ih _
    · exact ⟨rfl, rfl⟩

/-- The pruning loop leaves the initialization flag, the wipe mode and the
derived wipe geometry unchanged. -/
theorem prune_loop_config (distance : ℝ) (fuel : ℕ) (w : gcode_wiper) :
    (gcode_wiper.prune_loop distance fuel w).is_initialized_ =
      w.is_initialized_ ∧
    (gcode_wiper.prune_loop distance fuel w).use_full_wipe_ =
      w.use_full_wipe_ ∧
    (gcode_wiper.prune_loop distance fuel w).wipe_distance_ =
      w.wipe_distance_ ∧
    (gcode_wiper.prune_loop distance fuel w).half_wipe_distance_ =
      w.half_wipe_distance_ := by
  induction fuel generalizing w with
  | zero => exact ⟨rfl, rfl, rfl, rfl⟩
  | succ n ih =>
    simp only [gcode_wiper.prune_loop]
    split
    · split
      · exact ⟨rfl, rfl, rfl, rfl⟩
      · split
        · exact ⟨rfl, rfl, rfl, rfl⟩
        · split
          · exact ⟨rfl, rfl, rfl, rfl⟩
          · exact ih _
    · exact ⟨rfl, rfl, rfl, rfl⟩

/-- The pruning loop never lets the total distance drop below the required
distance it prunes against: the break at lines 210-216 stops before any
removal that would. -/
theorem prune_loop_total_bound (distance : ℝ) (fuel : ℕ) (w : gcode_wiper)
    (h : distance ≤ w.total_distance_) :
    distance ≤ (gcode_wiper.prune_loop distance fuel w).total_distance_ := by
  induction fuel generalizing w with
  | zero => exact h
  | succ n ih =>
    simp only [gcode_wiper.prune_loop]
    split
    · split
      · exact h
      · split
        · exact h
        · split
          · exact h
          · next hnlt => exact ih _ (le_of_not_lt hnlt)
    · exact h

/-- `prune_history` leaves the undo snapshot fields untouched. -/
theorem prune_history_undo_fields (w : gcode_wiper) :
    w.prune_history.previous_total_distance_ =
      w.previous_total_distance_ ∧
    w.prune_history.p_previous_starting_position_ =
      w.p_previous_starting_position_ := by
  rw [gcode_wiper.prune_history]
  exact prune_loop_undo_fields _ _ _

/-- `update` never changes the initialization flag. -/
theorem update_is_initialized (w : gcode_wiper)
    (c p : gcode_wiper_position) :
    (w.update c p).is_initialized_ = w.is_initialized_ := by
  rcases Bool.eq_false_or_eq_true w.is_initialized_ with h | h
  · unfold gcode_wiper.update
    rw [if_neg (by rw [h]; simp)]
    dsimp only
    split
    · simp [gcode_wiper.save_undo_data]
    · rw [gcode_wiper.prune_history, (prune_loop_config _ _ _).1]
      split <;> simp [gcode_wiper.save_undo_data]
  · simp [gcode_wiper.update, h]

/-- On every state reached without ever calling `initialize`, all the
accounting members still hold their constructed defaults: zero distances, no
anchors, empty history and empty history snapshot. -/
theorem reaches_uninit_inv {w : gcode_wiper} (hw : reaches w) :
    w.is_initialized_ = false →
    w.total_distance_ = 0 ∧ w.previous_total_distance_ = 0 ∧
    w.p_starting_position_ = none ∧
    w.p_previous_starting_position_ = none ∧
    w.history_.items = [] ∧ w.history_.previous_items = [] := by
  induction hw with
  | new_wiper s pre post wd hwd dtr =>
    exact fun _ => ⟨rfl, rfl, rfl, rfl, rfl, rfl⟩
  | @init_call w0 hw ih =>
    intro h
    exact absurd h (by simp [gcode_wiper.initialize_engine])
  | @update_call w0 c p hw ih =>
    intro h
    have hni : w0.is_initialized_ = false := by
      rw [← update_is_initialized w0 c p]; exact h
    have heq : w0.update c p = w0 := by
      simp [gcode_wiper.update, hni]
    rw [heq]
    exact ih hni
  | @undo_call w0 hw ih =>
    intro h
    have hni : w0.is_initialized_ = false := h
    obtain ⟨h1, h2, h3, h4, h5, h6⟩ := ih hni
    exact ⟨h2, rfl, h4, rfl, h6, rfl⟩

/-- Claim C9: on any state reached without `initialize` ever having been
called, `update` is a silent no-op leaving the whole engine state unchanged,
and `get_wipe_steps` produces an empty sequence. -/
theorem uninitialized_is_noop {w : gcode_wiper} (hw : reaches w)
    (hni : w.is_initialized_ = false) (c p : gcode_wiper_position) :
    w.update c p = w ∧ w.get_wipe_steps = [] := by
  obtain ⟨h1, h2, h3, h4, h5, h6⟩ := reaches_uninit_inv hw hni
  constructor
  · simp [gcode_wiper.update, hni]
  · simp [gcode_wiper.get_wipe_steps, h3]

/-- A fresh (default-constructed, never initialized) wiper over the §8
settings with zeroed indeterminate members. -/
def wiper_fresh : gcode_wiper := gcode_wiper_new args_ex 0 0 0 0 0

/-- Witness for claim C9 at the fresh wiper: `update` returns it unchanged
and `get_wipe_steps` is empty. -/
theorem uninitialized_is_noop_witness :
    wiper_fresh.update (pos_xy 1 0) (pos_xy 0 0) = wiper_fresh ∧
    wiper_fresh.get_wipe_steps = [] :=
  uninitialized_is_noop (reaches.new_wiper args_ex 0 0 0 0 0) rfl
    (pos_xy 1 0) (pos_xy 0 0)

/-- Claim C5: on every reachable state, an `update` followed by `undo`
restores `starting_position` and `total_distance` to exactly their
pre-`update` values. -/
theorem update_undo_restores {w : gcode_wiper} (hw : reaches w)
    (c p : gcode_wiper_position) :
    ((w.update c p).undo).total_distance_ = w.total_distance_ ∧
    ((w.update c p).undo).p_starting_position_ = w.p_starting_position_ := by
  by_cases hini : w.is_initialized_ = false
  · obtain ⟨h1, h2, h3, h4, h5, h6⟩ := reaches_uninit_inv hw hini
    have heq : w.update c p = w := by
      simp [gcode_wiper.update, hini]
    rw [heq]
    constructor
    · show w.previous_total_distance_ = w.total_distance_
      rw [h1, h2]
    · show w.p_previous_starting_position_ = w.p_starting_position_
      rw [h3, h4]
  · have hini' : w.is_initialized_ = true := by
      revert hini; cases w.is_initialized_ <;> simp
    unfold gcode_wiper.update
    rw [if_neg (by rw [hini']; simp)]
    dsimp only
    split
    · exact ⟨rfl, rfl⟩
    · constructor
      · show (gcode_wiper.prune_history _).previous_total_distance_ =
          w.total_distance_
        rw [(prune_history_undo_fields _).1]
        dsimp only
        split <;> rfl
      · show (gcode_wiper.prune_history _).p_previous_starting_position_ =
          w.p_starting_position_
        rw [(prune_history_undo_fields _).2]
        dsimp only
        split <;> rfl

/-- The §8 wiper, initialized. -/
def wiper_init_ex : gcode_wiper := wiper_fresh.initialize_engine

/-- Witness for claim C5 at the initialized §8 wiper and a unit move along
x. -/
theorem update_undo_restores_witness :
    ((wiper_init_ex.update (pos_xy 1 0) (pos_xy 0 0)).undo).total_distance_ =
      wiper_init_ex.total_distance_ ∧
    ((wiper_init_ex.update (pos_xy 1 0)
        (pos_xy 0 0)).undo).p_starting_position_ =
      wiper_init_ex.p_starting_position_ :=
  update_undo_restores
    (reaches.init_call (reaches.new_wiper args_ex 0 0 0 0 0))
    (pos_xy 1 0) (pos_xy 0 0)

/-- Claim C6: on every reachable state, an `update` whose current position
marks a layer change — or is not an extruding XY move — empties the history
and zeroes the total distance. -/
theorem update_reset_on_layer_change {w : gcode_wiper} (hw : reaches w)
    (c p : gcode_wiper_position)
    (hc : c.is_layer_change = true ∨
      ¬ (c.has_xy_position_changed = true ∧ c.is_extruding = true)) :
    (w.update c p).total_distance_ = 0 ∧
    (w.update c p).history_.items = [] := by
  by_cases hini : w.is_initialized_ = false
  · obtain ⟨h1, h2, h3, h4, h5, h6⟩ := reaches_uninit_inv hw hini
    have heq : w.update c p = w := by
      simp [gcode_wiper.update, hini]
    rw [heq]
    exact ⟨h1, h5⟩
  · have hini' : w.is_initialized_ = true := by
      revert hini; cases w.is_initialized_ <;> simp
    have hcond : (c.is_layer_change ||
        !(c.has_xy_position_changed && c.is_extruding)) = true := by
      rcases hc with h | h
      · simp [h]
      · rcases Bool.eq_false_or_eq_true c.has_xy_position_changed with
          h1 | h1 <;>
        rcases Bool.eq_false_or_eq_true c.is_extruding with h2 | h2 <;>
          simp_all
    unfold gcode_wiper.update
    rw [if_neg (by rw [hini']; simp), if_pos hcond]
    exact ⟨rfl, rfl⟩

/-- A position marking a layer change. -/
def pos_layer : gcode_wiper_position :=
  { pos_xy 0 1 with is_layer_change := true }

/-- Unfolding lemma: the pruning loop with zero fuel. -/
theorem prune_loop_zero (distance : ℝ) (w : gcode_wiper) :
    gcode_wiper.prune_loop distance 0 w = w := rfl

/-- Unfolding lemma: one step of the pruning loop. -/
theorem prune_loop_succ (distance : ℝ) (fuel : ℕ) (w : gcode_wiper) :
    gcode_wiper.prune_loop distance (Nat.succ fuel) w =
      (if w.total_distance_ > distance then
        match w.history_.items with
        | [] => w
        | front_item :: _ =>
          match w.p_starting_position_ with
          | none => w
          | some sp =>
            let distance_removed :=
              get_cartesian_distance sp.x sp.y front_item.x front_item.y
            let new_total_distance := w.total_distance_ - distance_removed
            if less_than new_total_distance distance then w
            else
              gcode_wiper.prune_loop distance fuel
                { w with
                  p_starting_position_ := some front_item
                  total_distance_ := new_total_distance
                  history_ := w.history_.remove }
      else w) := rfl

/-- The pruning loop does nothing when the total distance is already within
the required distance. -/
theorem prune_loop_eq_self (distance : ℝ) (fuel : ℕ) (w : gcode_wiper)
    (h : w.total_distance_ ≤ distance) :
    gcode_wiper.prune_loop distance fuel w = w := by
  cases fuel with
  | zero => rfl
  | succ n =>
    rw [prune_loop_succ, if_neg (not_lt.mpr h)]

/-- `get_wipe_steps` is empty whenever its guard fires: zero total distance,
no anchor, or an empty history. -/
theorem get_wipe_steps_nil (w : gcode_wiper)
    (h : w.total_distance_ = 0 ∨ w.p_starting_position_ = none ∨
      w.history_.items = []) :
    w.get_wipe_steps = [] := by
  unfold gcode_wiper.get_wipe_steps
  cases hs : w.p_starting_position_ with
  | none => rfl
  | some start0 =>
    cases hi : w.history_.items with
    | nil => rfl
    | cons f r =>
      rcases h with h | h | h
      · simp [h]
      · rw [hs] at h; exact absurd h (by simp)
      · rw [hi] at h; exact absurd h (by simp)

/-- Witness for claim C6: a layer-change `update` on the initialized §8
wiper leaves zero total distance and an empty history. -/
theorem update_reset_on_layer_change_witness :
    (wiper_init_ex.update pos_layer (pos_xy 0 0)).total_distance_ = 0 ∧
    (wiper_init_ex.update pos_layer (pos_xy 0 0)).history_.items = [] :=
  update_reset_on_layer_change
    (reaches.init_call (reaches.new_wiper args_ex 0 0 0 0 0))
    pos_layer (pos_xy 0 0) (Or.inl rfl)

/-- Claim C4 (amended): whenever the total distance already covers the
required wipe distance, pruning keeps it that way — the loop stops rather
than remove a front entry whose removal would leave the total below the
required distance. -/
theorem prune_history_keeps_required_distance (w : gcode_wiper)
    (h : w.get_wipe_distance ≤ w.total_distance_) :
    w.prune_history.get_wipe_distance ≤ w.prune_history.total_distance_ := by
  have hcong : ∀ v u : gcode_wiper, v.use_full_wipe_ = u.use_full_wipe_ →
      v.wipe_distance_ = u.wipe_distance_ →
      v.half_wipe_distance_ = u.half_wipe_distance_ →
      v.get_wipe_distance = u.get_wipe_distance := by
    intro v u h1 h2 h3
    unfold gcode_wiper.get_wipe_distance
    rw [h1, h2, h3]
  have hcfg := prune_loop_config w.get_wipe_distance w.history_.items.length w
  have hb := prune_loop_total_bound w.get_wipe_distance
    w.history_.items.length w h
  have hgwd : w.prune_history.get_wipe_distance = w.get_wipe_distance := by
    rw [gcode_wiper.prune_history]
    exact hcong _ _ hcfg.2.1 hcfg.2.2.1 hcfg.2.2.2
  rw [hgwd, gcode_wiper.prune_history]
  exact hb

/-- An initialized §8 wiper holding three unit segments along x: total
distance 3 against a required wipe distance of 2.4. -/
def wiper_long_ex : gcode_wiper :=
  { settings_ := args_ex, total_distance_ := 3,
    previous_total_distance_ := 0,
    p_starting_position_ := some (pos_xy 0 0),
    p_previous_starting_position_ := none, is_initialized_ := true,
    use_full_wipe_ := true, pre_wipe_retract_length_ := 2 / 5,
    post_wipe_retract_length_ := 2 / 5, wipe_distance_ := 12 / 5,
    half_wipe_distance_ := 6 / 5, distance_to_retraction_ratio_ := 1 / 2,
    history_ := { items := [pos_xy 1 0, pos_xy 2 0, pos_xy 3 0], previous_items := [] } }

/-- Witness for the amended claim C4 at the three-segment §8 state: the
required distance 2.4 is covered before pruning and stays covered after. -/
theorem prune_history_keeps_required_distance_witness :
    wiper_long_ex.get_wipe_distance ≤ wiper_long_ex.total_distance_ ∧
    wiper_long_ex.prune_history.get_wipe_distance ≤
      wiper_long_ex.prune_history.total_distance_ := by
  have h : wiper_long_ex.get_wipe_distance ≤ wiper_long_ex.total_distance_ :=
    by norm_num [wiper_long_ex, gcode_wiper.get_wipe_distance]
  exact ⟨h, prune_history_keeps_required_distance wiper_long_ex h⟩

/-- An initialized §8 wiper with empty history, about to receive its first
move. -/
def wiper_ready_ex : gcode_wiper :=
  { settings_ := args_ex, total_distance_ := 0,
    previous_total_distance_ := 0, p_starting_position_ := none,
    p_previous_starting_position_ := none, is_initialized_ := true,
    use_full_wipe_ := true, pre_wipe_retract_length_ := 2 / 5,
    post_wipe_retract_length_ := 2 / 5, wipe_distance_ := 12 / 5,
    half_wipe_distance_ := 6 / 5, distance_to_retraction_ratio_ := 1 / 2,
    history_ := { items := [], previous_items := [] } }

/-- The §8 wiper after a single appending update covering distance 1. -/
def wiper_short_ex : gcode_wiper :=
  wiper_ready_ex.update (pos_xy 1 0) (pos_xy 0 0)

/-- Counterexample to claim C4 as stated: an appending update on the §8
engine covering only distance 1 leaves a non-empty history (one entry, so
it was also non-empty before pruning, which only removes entries) with
`total_distance = 1` strictly below the required wipe distance 2.4. -/
theorem prune_lower_bound_fails_short_path :
    wiper_short_ex.history_.items ≠ [] ∧
    wiper_short_ex.total_distance_ = 1 ∧
    wiper_short_ex.get_wipe_distance = 12 / 5 ∧
    ¬ (wiper_short_ex.get_wipe_distance ≤ wiper_short_ex.total_distance_)
    := by
  have hd : get_cartesian_distance 0 0 1 0 = 1 := by
    unfold get_cartesian_distance
    rw [show ((1:ℝ) - 0) ^ 2 + ((0:ℝ) - 0) ^ 2 = 1 by norm_num,
      Real.sqrt_one]
  have hstate : wiper_short_ex =
      { wiper_ready_ex with
        p_starting_position_ := some (pos_xy 0 0),
        previous_total_distance_ := 0,
        total_distance_ := 1,
        history_ := { items := [pos_xy 1 0], previous_items := [] } } := by
    unfold wiper_short_ex
    unfold gcode_wiper.update
    rw [if_neg (show ¬ (wiper_ready_ex.is_initialized_ = false) by
      simp [wiper_ready_ex])]
    dsimp only
    rw [if_neg (show ¬ (((pos_xy 1 0).is_layer_change ||
        !((pos_xy 1 0).has_xy_position_changed &&
          (pos_xy 1 0).is_extruding)) = true) by simp [pos_xy])]
    rw [if_pos (show (gcode_wiper.save_undo_data
      wiper_ready_ex).history_.size = 0 from rfl)]
    rw [gcode_wiper.prune_history, prune_loop_eq_self]
    · dsimp only [gcode_wiper.save_undo_data, gcode_wiper_position_list.push_back, pos_xy]
      norm_num [wiper_ready_ex, hd]
    · dsimp only [gcode_wiper.save_undo_data, gcode_wiper_position_list.push_back, pos_xy, gcode_wiper.get_wipe_distance]
      norm_num [wiper_ready_ex, hd]
  refine ⟨?_, ?_, ?_, ?_⟩ <;>
    rw [hstate] <;>
    norm_num [wiper_ready_ex, gcode_wiper.get_wipe_distance]

/-- After an append that made the single history entry `c`, anchored at
`sp`, with required wipe distance 0 and a move of positive length, the
pruning loop removes that entry: the total distance returns to 0, the
history empties, and the undo snapshot fields are untouched. -/
theorem prune_single_clears (w : gcode_wiper) (sp c : gcode_wiper_position)
    (hsp : w.p_starting_position_ = some sp)
    (hitems : w.history_.items = [c])
    (htot : w.total_distance_ =
      0 + get_cartesian_distance sp.x sp.y c.x c.y)
    (hD : 0 < get_cartesian_distance sp.x sp.y c.x c.y)
    (hdist : w.get_wipe_distance = 0) :
    w.prune_history.total_distance_ = 0 ∧
    w.prune_history.history_.items = [] ∧
    w.prune_history.previous_total_distance_ =
      w.previous_total_distance_ ∧
    w.prune_history.history_.previous_items =
      w.history_.previous_items := by
  rw [gcode_wiper.prune_history, hdist, hitems]
  rw [show ([c] : List gcode_wiper_position).length = Nat.succ 0 from rfl]
  rw [prune_loop_succ]
  rw [if_pos (show w.total_distance_ > 0 by rw [htot]; linarith)]
  rw [hitems, hsp]
  dsimp only
  rw [if_neg (show ¬ less_than (w.total_distance_ -
      get_cartesian_distance sp.x sp.y c.x c.y) 0 by rw [htot]; simp)]
  rw [prune_loop_zero]
  refine ⟨?_, ?_, rfl, rfl⟩
  · show w.total_distance_ -
      get_cartesian_distance sp.x sp.y c.x c.y = 0
    rw [htot]; ring
  · show (w.history_.remove).items = []
    simp [gcode_wiper_position_list.remove, hitems]

/-- The runs of an engine constructed and initialized on settings `s`: any
sequence of `update` and `undo` calls, where each update's current position
carries a truthful `has_xy_position_changed` flag (when it claims the XY
position changed, its coordinates really differ from the previous
position's — the meaning spec §3 gives the flag; the upstream parser never
produces a position violating this). -/
inductive zero_wipe_reaches (s : gcode_wiper_args)
    (pre post wd hwd dtr : ℝ) : gcode_wiper → Prop where
  | start : zero_wipe_reaches s pre post wd hwd dtr
      ((gcode_wiper_new s pre post wd hwd dtr).initialize_engine)
  | update_call {w : gcode_wiper}
      (current_position previous_position : gcode_wiper_position) :
      (current_position.has_xy_position_changed = true →
        ¬(current_position.x = previous_position.x ∧
          current_position.y = previous_position.y)) →
      zero_wipe_reaches s pre post wd hwd dtr w →
      zero_wipe_reaches s pre post wd hwd dtr
        (w.update current_position previous_position)
  | undo_call {w : gcode_wiper} :
      zero_wipe_reaches s pre post wd hwd dtr w →
      zero_wipe_reaches s pre post wd hwd dtr w.undo

/-- When the settings derive a wipe distance of 0, every state of a run
keeps zero accounting: every appending update covers a positive distance
(truthful flag), so the pruning loop removes the single entry again, and
clears and undos preserve the emptiness. -/
theorem zero_wipe_invariant {s : gcode_wiper_args}
    {pre post wd hwd dtr : ℝ} {w : gcode_wiper}
    (hrun : zero_wipe_reaches s pre post wd hwd dtr w)
    (h : derived_wipe_distance (normalize_settings s) = 0) :
    w.is_initialized_ = true ∧ w.total_distance_ = 0 ∧
    w.previous_total_distance_ = 0 ∧ w.history_.items = [] ∧
    w.history_.previous_items = [] ∧ w.use_full_wipe_ = true ∧
    w.wipe_distance_ = 0 := by
  induction hrun with
  | start => exact ⟨rfl, rfl, rfl, rfl, rfl, rfl, h⟩
  | @update_call w0 c p hco hrun ih =>
    obtain ⟨hinit, htot, hptot, hitems, hpitems, hfull, hwd0⟩ := ih
    unfold gcode_wiper.update
    rw [if_neg (by rw [hinit]; simp)]
    dsimp only
    split
    · exact ⟨hinit, rfl, htot, rfl, hitems, hfull, hwd0⟩
    · next hguard =>
      have hxy : c.has_xy_position_changed = true := by
        rcases Bool.eq_false_or_eq_true c.has_xy_position_changed with
          hh | hh
        · exact hh
        · exact absurd (by simp [hh]) hguard
      have hD : 0 < get_cartesian_distance p.x p.y c.x c.y := by
        unfold get_cartesian_distance
        apply Real.sqrt_pos.mpr
        rcases not_and_or.mp (hco hxy) with hx | hy
        · have h2 : 0 < (c.x - p.x) ^ 2 := lt_of_le_of_ne (sq_nonneg _)
            (Ne.symm (pow_ne_zero 2 (sub_ne_zero.mpr hx)))
          have h3 := sq_nonneg (c.y - p.y)
          linarith
        · have h2 : 0 < (c.y - p.y) ^ 2 := lt_of_le_of_ne (sq_nonneg _)
            (Ne.symm (pow_ne_zero 2 (sub_ne_zero.mpr hy)))
          have h3 := sq_nonneg (c.x - p.x)
          linarith
      have hsize : (w0.save_undo_data).history_.size = 0 := by
        show w0.history_.items.length = 0
        simp [hitems]
      rw [if_pos hsize]
      have hkey := prune_single_clears
        (let w1 := w0.save_undo_data
         let w2 := { w1 with p_starting_position_ := some p }
         { w2 with
           history_ := w2.history_.push_back c
           previous_total_distance_ := w2.total_distance_
           total_distance_ := w2.total_distance_ +
             get_cartesian_distance p.x p.y c.x c.y }) p c rfl
        (show w0.history_.items ++ [c] = [c] by simp [hitems])
        (show w0.total_distance_ +
          get_cartesian_distance p.x p.y c.x c.y =
          0 + get_cartesian_distance p.x p.y c.x c.y by rw [htot]) hD
        (by show ite (w0.use_full_wipe_ = true) w0.wipe_distance_
              w0.half_wipe_distance_ = 0
            rw [if_pos hfull]
            exact hwd0)
      refine ⟨?_, hkey.1, hkey.2.2.1.trans htot, hkey.2.1,
        hkey.2.2.2.trans hitems, ?_, ?_⟩
      · rw [gcode_wiper.prune_history, (prune_loop_config _ _ _).1]
        exact hinit
      · rw [gcode_wiper.prune_history, (prune_loop_config _ _ _).2.1]
        exact hfull
      · rw [gcode_wiper.prune_history, (prune_loop_config _ _ _).2.2.1]
        exact hwd0
  | @undo_call w0 hrun ih =>
    obtain ⟨hinit, htot, hptot, hitems, hpitems, hfull, hwd0⟩ := ih
    exact ⟨hinit, hptot, rfl, hpitems, rfl, hfull, hwd0⟩

/-- Claim C7 (amended, empty-output half): when the configured settings
derive a wipe distance of 0, `get_wipe_steps` returns an empty sequence on
every state the engine reaches from that initialization by any sequence of
`update` calls (with positions whose `has_xy_position_changed` flag is
truthful) and `undo` calls. -/
theorem wipe_distance_zero_steps_empty (s : gcode_wiper_args)
    (pre post wd hwd dtr : ℝ) (w : gcode_wiper)
    (hrun : zero_wipe_reaches s pre post wd hwd dtr w)
    (h : derived_wipe_distance (normalize_settings s) = 0) :
    w.get_wipe_steps = [] :=
  get_wipe_steps_nil w (Or.inl (zero_wipe_invariant hrun h).2.1)

/-- Degenerate settings: zero retraction length and percentages, so the
derived wipe distance is 0. -/
def args_zero : gcode_wiper_args :=
  { retraction_length := 0, retract_before_wipe_percent := 0,
    retract_after_wipe_percent := 0, retraction_feedrate := 1,
    wipe_feedrate := 1, x_y_travel_speed := 1 }

/-- Witness for the amended claim C7 at the all-zero retraction settings:
the derived wipe distance is 0, and after two consecutive unit moves from
the initialized engine the step output is still empty. -/
theorem wipe_distance_zero_steps_empty_witness :
    derived_wipe_distance (normalize_settings args_zero) = 0 ∧
    ((((gcode_wiper_new args_zero 0 0 0 0 0).initialize_engine).update
        (pos_xy 1 0) (pos_xy 0 0)).update (pos_xy 3 0)
        (pos_xy 2 0)).get_wipe_steps = [] := by
  have h : derived_wipe_distance (normalize_settings args_zero) = 0 := by
    norm_num [derived_wipe_distance, normalize_settings, args_zero,
      less_than, greater_than, is_zero]
  refine ⟨h, wipe_distance_zero_steps_empty args_zero 0 0 0 0 0 _ ?_ h⟩
  exact zero_wipe_reaches.update_call (pos_xy 3 0) (pos_xy 2 0)
    (fun _ => by norm_num [pos_xy])
    (zero_wipe_reaches.update_call (pos_xy 1 0) (pos_xy 0 0)
      (fun _ => by norm_num [pos_xy])
      zero_wipe_reaches.start)

/-- Formalization of claim C7's division-safety assertion for `initialize`:
the divisors of the two divisions `initialize` performs (the retraction
feedrate, line 59, and the derived wipe distance, line 62 — neither
guarded in the source) are non-zero. -/
def initialize_divisions_safe (s : gcode_wiper_args) : Prop :=
  (normalize_settings s).retraction_feedrate ≠ 0 ∧
  derived_wipe_distance (normalize_settings s) ≠ 0

/-- Counterexample to claim C7 as stated: the all-zero retraction settings
derive a wipe distance of exactly 0, yet `initialize` still performs the
`distance_to_retraction_ratio_` division with that zero wipe distance as
divisor (line 62 is unguarded), so the no-division-by-zero half of the
claim is false. -/
theorem initialize_divides_by_zero_wipe_distance :
    derived_wipe_distance (normalize_settings args_zero) = 0 ∧
    ¬ initialize_divisions_safe args_zero := by
  have h : derived_wipe_distance (normalize_settings args_zero) = 0 := by
    norm_num [derived_wipe_distance, normalize_settings, args_zero,
      less_than, greater_than, is_zero]
  exact ⟨h, fun hsafe => hsafe.2 h⟩

/-- The last element of a list with a default, when the list continues past
an explicit cons cell, ignores everything before that cell. -/
theorem getLastD_append_cons {α : Type} (l1 : List α) (b : α) (l2 : List α)
    (d : α) : (l1 ++ b :: l2).getLastD d = l2.getLastD b := by
  induction l1 generalizing d with
  | nil => rw [List.nil_append, List.getLastD_cons]
  | cons x l1 ih => rw [List.cons_append, List.getLastD_cons, ih]

/-- A property holding for the default and every element holds for
`getLastD`. -/
theorem getLastD_prop {α : Type} (P : α → Prop) (l : List α) (d : α)
    (hd : P d) (hl : ∀ x ∈ l, P x) : P (l.getLastD d) := by
  induction l generalizing d with
  | nil => exact hd
  | cons a l ih =>
    rw [List.getLastD_cons]
    exact ih a (hl a (by simp)) (fun x hx => hl x (by simp [hx]))

/-- `get_wipe_step` only ever produces motion or travel steps, never a
retract-only step. -/
theorem get_wipe_step_not_retract (w : gcode_wiper)
    (a b : gcode_wiper_position) (rr oe f : ℝ) (ir : Bool) :
    is_retract_step (w.get_wipe_step a b rr oe f ir).1 = false := by
  unfold gcode_wiper.get_wipe_step
  dsimp only
  split
  · split
    · rfl
    · rfl
  · rfl

/-- Every step emitted by a traversal pass is a motion or travel step. -/
theorem wipe_pass_not_retract (w : gcode_wiper) (ir hp : Bool)
    (L : List gcode_wiper_position) :
    ∀ (prev : Option gcode_wiper_position) (oe f : ℝ),
      ∀ st ∈ (gcode_wiper.wipe_pass w ir hp L prev oe f).1,
        is_retract_step st = false := by
  induction L with
  | nil =>
    intro prev oe f st hst
    simp [gcode_wiper.wipe_pass] at hst
  | cons current rest ih =>
    intro prev oe f st hst
    cases prev with
    | none =>
      simp only [gcode_wiper.wipe_pass] at hst
      exact ih _ _ _ st hst
    | some previous =>
      simp only [gcode_wiper.wipe_pass] at hst
      rcases List.mem_cons.mp hst with h1 | h1
      · rw [h1]
        exact get_wipe_step_not_retract _ _ _ _ _ _ _
      · exact ih _ _ _ st h1

/-- Structural decomposition of the guarded `get_wipe_steps` body: an
optional single pre-retract (guarded by the pre-wipe retract length), the
outbound pass-0 steps, the turn-around pair, the pass-1 return steps, and
an optional single post-retract (guarded by the resolved post length); all
middle steps are motion or travel steps. -/
theorem get_wipe_steps_body_decomp (w : gcode_wiper)
    (start0 first0 : gcode_wiper_position)
    (rest : List gcode_wiper_position) :
    ∃ pre_part outbound tA tB return_part post_part,
      gcode_wiper.get_wipe_steps_body w start0 first0 rest =
        pre_part ++ outbound ++ [tA, tB] ++ return_part ++ post_part ∧
      (∃ e, pre_part = if 0 < w.pre_wipe_retract_length_ then
        [get_retract_step e w.settings_.retraction_feedrate] else []) ∧
      (∃ e f, post_part = if 0 < w.resolved_post_length then
        [get_retract_step e f] else []) ∧
      (∀ st ∈ outbound, is_retract_step st = false) ∧
      is_retract_step tA = false ∧ is_retract_step tB = false ∧
      (∀ st ∈ return_part, is_retract_step st = false) := by
  unfold gcode_wiper.get_wipe_steps_body
  dsimp only
  refine ⟨_, _, _, _, _, _, rfl, ⟨_, rfl⟩, ⟨_, _, rfl⟩, ?_, ?_, ?_, ?_⟩
  · exact wipe_pass_not_retract w false _ _ _ _ _
  · exact get_wipe_step_not_retract _ _ _ _ _ _ _
  · exact get_wipe_step_not_retract _ _ _ _ _ _ _
  · exact wipe_pass_not_retract w true _ _ _ _ _

/-- Claim C1: whenever `get_wipe_steps` emits a non-empty sequence, it
decomposes as an optional pre-retract (present iff
`pre_wipe_retract_length > 0`), the outbound wipe segments, the turn-around
pair, the return wipe segments, and an optional post-retract (present iff
the resolved post-wipe retract length is positive); accordingly the output
begins with a retract-only step iff `pre_wipe_retract_length > 0` and ends
with one iff the resolved post length is positive. -/
theorem get_wipe_steps_step_ordering (w : gcode_wiper)
    (h : w.get_wipe_steps ≠ []) :
    (∃ pre_part outbound tA tB return_part post_part,
      w.get_wipe_steps =
        pre_part ++ outbound ++ [tA, tB] ++ return_part ++ post_part ∧
      (pre_part ≠ [] ↔ 0 < w.pre_wipe_retract_length_) ∧
      (∀ st ∈ pre_part, is_retract_step st = true) ∧ pre_part.length ≤ 1 ∧
      (∀ st ∈ outbound, is_retract_step st = false) ∧
      is_retract_step tA = false ∧ is_retract_step tB = false ∧
      (∀ st ∈ return_part, is_retract_step st = false) ∧
      (post_part ≠ [] ↔ 0 < w.resolved_post_length) ∧
      (∀ st ∈ post_part, is_retract_step st = true) ∧
      post_part.length ≤ 1) ∧
    (is_retract_step w.get_wipe_steps.headI = true ↔
      0 < w.pre_wipe_retract_length_) ∧
    (is_retract_step (w.get_wipe_steps.getLastD
        (gcode_wiper_step.travel 0 0 0)) = true ↔
      0 < w.resolved_post_length) := by
  cases hs : w.p_starting_position_ with
  | none => exact absurd (get_wipe_steps_nil _ (Or.inr (Or.inl hs))) h
  | some start0 =>
  cases hi : w.history_.items with
  | nil => exact absurd (get_wipe_steps_nil _ (Or.inr (Or.inr hi))) h
  | cons first0 rest =>
  by_cases h0 : w.total_distance_ = 0
  · exact absurd (get_wipe_steps_nil _ (Or.inl h0)) h
  have hbody : w.get_wipe_steps =
      gcode_wiper.get_wipe_steps_body w start0 first0 rest := by
    unfold gcode_wiper.get_wipe_steps
    rw [hs, hi]
    dsimp only
    rw [if_neg h0]
  obtain ⟨preP, outb, tA, tB, retP, postP, heq, ⟨e1, hpre⟩,
    ⟨e2, f2, hpost⟩, houtb, htA, htB, hret⟩ :=
    get_wipe_steps_body_decomp w start0 first0 rest
  rw [hbody, heq]
  refine ⟨⟨preP, outb, tA, tB, retP, postP, rfl, ?_, ?_, ?_, houtb, htA,
    htB, hret, ?_, ?_, ?_⟩, ?_, ?_⟩
  · rw [hpre]
    by_cases hp : 0 < w.pre_wipe_retract_length_ <;> simp [hp]
  · rw [hpre]
    split <;> intro st hst <;>
      simp_all [get_retract_step, is_retract_step]
  · rw [hpre]
    split <;> simp
  · rw [hpost]
    by_cases hq : 0 < w.resolved_post_length <;> simp [hq]
  · rw [hpost]
    split <;> intro st hst <;>
      simp_all [get_retract_step, is_retract_step]
  · rw [hpost]
    split <;> simp
  · -- head
    by_cases hp : 0 < w.pre_wipe_retract_length_
    · rw [hpre, if_pos hp, List.singleton_append]
      simp [get_retract_step, is_retract_step, hp]
    · rw [hpre, if_neg hp, List.nil_append]
      cases outb with
      | nil =>
        rw [List.nil_append, List.cons_append]
        simp [htA, hp]
      | cons o os =>
        rw [List.cons_append]
        have ho := houtb o (by simp)
        simp [ho, hp]
  · -- last
    by_cases hq : 0 < w.resolved_post_length
    · rw [hpost, if_pos hq]
      rw [show preP ++ outb ++ [tA, tB] ++ retP ++
          [get_retract_step e2 f2] =
          (preP ++ outb ++ [tA, tB] ++ retP) ++
          get_retract_step e2 f2 :: [] by simp [List.append_assoc]]
      rw [getLastD_append_cons]
      simp [get_retract_step, is_retract_step, hq]
    · rw [hpost, if_neg hq, List.append_nil]
      rw [show preP ++ outb ++ [tA, tB] ++ retP =
          (preP ++ outb) ++ tA :: (tB :: retP) by simp]
      rw [getLastD_append_cons, List.getLastD_cons]
      have hlast := getLastD_prop (fun st => is_retract_step st = false)
        retP tB htB hret
      simp only [hlast]
      simp [hq]

/-- An initialized engine in full-wipe mode, holding one unit segment from
(0,0) to (1,0), with wipe distance 1, ratio 1, pre- and post-retract
lengths 1, retraction feedrate 1, wipe feedrate 2 and travel speed 3. -/
def args_unit : gcode_wiper_args :=
  { retraction_length := 2, retract_before_wipe_percent := 1 / 2,
    retract_after_wipe_percent := 1 / 2, retraction_feedrate := 1,
    wipe_feedrate := 2, x_y_travel_speed := 3 }

/-- See `args_unit`; the state below carries its derived geometry. -/
def wiper_steps_ex : gcode_wiper :=
  { settings_ := args_unit,
    total_distance_ := 1, previous_total_distance_ := 0,
    p_starting_position_ := some (pos_xy 0 0),
    p_previous_starting_position_ := none, is_initialized_ := true,
    use_full_wipe_ := true, pre_wipe_retract_length_ := 1,
    post_wipe_retract_length_ := 1, wipe_distance_ := 1,
    half_wipe_distance_ := 1 / 2, distance_to_retraction_ratio_ := 1,
    history_ := { items := [pos_xy 1 0], previous_items := [] } }

/-- The concrete step list the one-segment example produces: pre-retract,
one outbound wipe to the anchor, one travel back, post-retract. -/
theorem wiper_steps_ex_eval :
    wiper_steps_ex.get_wipe_steps =
      [gcode_wiper_step.retract (-1) 1,
        gcode_wiper_step.wipe 0 0 (-2) 2,
        gcode_wiper_step.travel 1 0 3,
        gcode_wiper_step.retract (-3) 1] := by
  have hd : get_cartesian_distance 1 0 0 0 = 1 := by
    unfold get_cartesian_distance
    rw [show ((0:ℝ) - 1) ^ 2 + ((0:ℝ) - 0) ^ 2 = 1 by norm_num,
      Real.sqrt_one]
  norm_num [wiper_steps_ex, args_unit, gcode_wiper.get_wipe_steps,
    gcode_wiper.get_wipe_steps_body, gcode_wiper.get_missing_retraction,
    gcode_wiper.get_extra_retraction, gcode_wiper.get_wipe_step,
    gcode_wiper.wipe_pass, gcode_wiper.resolved_post_length,
    wipe_distance_to_retraction_, get_retract_step, get_travel_step,
    pos_xy, gcode_wiper_position.get_offset_e,
    gcode_wiper_position.get_offset_x, gcode_wiper_position.get_offset_y,
    List.getLastD, hd]

/-- Witness for claim C1 at the one-segment example: the output is
non-empty, begins with a retract-only step (the pre length 1 is positive)
and ends with one (the resolved post length is positive). -/
theorem get_wipe_steps_step_ordering_witness :
    wiper_steps_ex.get_wipe_steps ≠ [] ∧
    (is_retract_step wiper_steps_ex.get_wipe_steps.headI = true ↔
      0 < wiper_steps_ex.pre_wipe_retract_length_) ∧
    (is_retract_step (wiper_steps_ex.get_wipe_steps.getLastD
        (gcode_wiper_step.travel 0 0 0)) = true ↔
      0 < wiper_steps_ex.resolved_post_length) := by
  have hne : wiper_steps_ex.get_wipe_steps ≠ [] := by
    rw [wiper_steps_ex_eval]
    simp
  have hmain := get_wipe_steps_step_ordering wiper_steps_ex hne
  exact ⟨hne, hmain.2.1, hmain.2.2⟩

end
